import Mathlib

/-
  Shallow embedding of the windborne-challenge server core
  (src/server/index.js): JSON-ish value model, record normalizer,
  track builder, earthquake normalizer, nearest-event joiner, and the
  HTTP route bodies that the claims reference.

  JavaScript numbers are modelled as rationals plus NaN and the two
  infinities; floating-point rounding is out of scope, and the
  transcendental haversine distance is a parameter of every definition
  that the source feeds through `haversineKm` (the scan/aggregation
  logic under verification is independent of the metric itself).
-/

namespace WB

/-- JavaScript number: a finite value (modelled as a rational), NaN, or a
signed infinity. -/
inductive JSNum where
  | fin (q : ℚ)
  | nan
  | inf
  | negInf
deriving DecidableEq, Repr

/-- JavaScript/JSON value as consumed by the server: primitives, arrays and
string-keyed objects. -/
inductive JSVal where
  | null
  | undefined
  | num (n : JSNum)
  | str (s : String)
  | bool (b : Bool)
  | arr (elems : List JSVal)
  | obj (fields : List (String × JSVal))
deriving Repr

/-- JS truthiness (`!v` negates this). -/
def toBool : JSVal → Bool
  | .null => false
  | .undefined => false
  | .num (.fin q) => !(q == 0)
  | .num .nan => false
  | .num .inf => true
  | .num .negInf => true
  | .str s => !(s == "")
  | .bool b => b
  | .arr _ => true
  | .obj _ => true

/-- Decimal digit-string parser backing the string case of `toNumber`;
`Number("…")` is modelled for the empty string and nonnegative integer
literals, every other string becomes NaN (the feeds under test carry
numeric fields as JSON numbers, not strings). -/
def decDigits (s : String) : Option Nat :=
  if s.data.isEmpty then none
  else s.data.foldl (fun acc c => match acc with
    | none => none
    | some n => if c.isDigit then some (n * 10 + (c.toNat - 48)) else none) (some 0)

/-- JS `Number(v)` (abstract ToNumber). Note `Number(null) = 0` and
`Number(undefined) = NaN`; single-element arrays coerce through their
element, as in JS (via ToPrimitive/string round-trip). -/
def toNumber : JSVal → JSNum
  | .null => .fin 0
  | .undefined => .nan
  | .num n => n
  | .bool true => .fin 1
  | .bool false => .fin 0
  | .str s => if s = "" then .fin 0 else
      match decDigits s with
      | some n => .fin n
      | none => .nan
  | .arr [] => .fin 0
  | .arr [.null] => .fin 0
  | .arr [.undefined] => .fin 0
  | .arr [.bool _] => .nan
  | .arr [x] => toNumber x
  | .arr _ => .nan
  | .obj _ => .nan

/-- JS global `isFinite(v)`: coerces with ToNumber first, so
`isFinite(null)` is `true`. -/
def globalIsFinite (v : JSVal) : Bool :=
  match toNumber v with
  | .fin _ => true
  | _ => false

/-- Model of `Number.isFinite(n)` on an already-numeric value: no coercion. -/
def numIsFinite : JSNum → Bool
  | .fin _ => true
  | _ => false

/-- Property access `v.k` on an object (first matching key), `undefined`
elsewhere. The source only dereferences non-nullish values without `?.`. -/
def getField : JSVal → String → JSVal
  | .obj fs, k =>
      match fs.find? (fun kv => kv.1 == k) with
      | some kv => kv.2
      | none => .undefined
  | _, _ => .undefined

/-- Optional chaining `v?.k`. -/
def optChain (v : JSVal) (k : String) : JSVal :=
  match v with
  | .null => .undefined
  | .undefined => .undefined
  | w => getField w k

/-- Array indexing `xs[i]` (out of range gives `undefined`). -/
def jsIndex (xs : List JSVal) (i : Nat) : JSVal :=
  (xs[i]?).getD .undefined

/-- Nullish coalescing `v ?? fallback`. -/
def nullish (v fallback : JSVal) : JSVal :=
  match v with
  | .null => fallback
  | .undefined => fallback
  | _ => v

/-- Model of `Object.values(payload)`. -/
def objValues (fs : List (String × JSVal)) : List JSVal :=
  fs.map (fun kv => kv.2)

/-- Model of `typeof v === 'object'` (true for objects, arrays and `null`). -/
def typeofObject : JSVal → Bool
  | .null => true
  | .arr _ => true
  | .obj _ => true
  | _ => false

/-- Model of `unwrapEntries(payload)` from the source: bare array, `balloons` /
`constellation` wrappers, recursive `data` unwrapping, else
`Object.values`; every non-array non-object (and falsy) payload yields
the empty list. -/
def unwrapEntries : JSVal → List JSVal
  | .arr xs => xs
  | .obj fs =>
      match getField (.obj fs) "balloons" with
      | .arr xs => xs
      | _ =>
        match getField (.obj fs) "constellation" with
        | .arr xs => xs
        | _ =>
          match h : fs.find? (fun kv => kv.1 == "data") with
          | some kv =>
              if typeofObject kv.2 then unwrapEntries kv.2 else objValues fs
          | none => objValues fs
  | _ => []
decreasing_by
  have hmem : kv ∈ fs := List.mem_of_find?_eq_some h
  have hlt : sizeOf kv < sizeOf fs := List.sizeOf_lt_of_mem hmem
  cases kv with
  | mk k v =>
    simp only [Prod.mk.sizeOf_spec] at hlt
    simp only [JSVal.obj.sizeOf_spec]
    omega

/-- Rendering of a JS number by `String(…)`; integral rationals print as
integers, non-integral ones through the rational printer (an
approximation of JS decimal formatting that no claim depends on). -/
def numToString : JSNum → String
  | .fin q => if q.den == 1 then toString q.num else toString q
  | .nan => "NaN"
  | .inf => "Infinity"
  | .negInf => "-Infinity"

/-- Nullish test used when joining array elements for `String(…)`. -/
def isNullish : JSVal → Bool
  | .null => true
  | .undefined => true
  | _ => false

/-- Rendering of one array element under `String(array)` (JS joins with
commas and prints nullish elements empty).  Nested composite elements
are rendered one level deep only — no claim depends on the string form
of an identifier that is itself a nested array. -/
def jsElemToString : JSVal → String
  | .null => ""
  | .undefined => ""
  | .bool true => "true"
  | .bool false => "false"
  | .num n => numToString n
  | .str s => s
  | .obj _ => "[object Object]"
  | .arr _ => ""

/-- JS `String(v)` for the value shapes that can reach the identifier
slot of a record. -/
def jsToString : JSVal → String
  | .null => "null"
  | .undefined => "undefined"
  | .bool true => "true"
  | .bool false => "false"
  | .num n => numToString n
  | .str s => s
  | .obj _ => "[object Object]"
  | .arr xs => String.intercalate "," (xs.map jsElemToString)

/-- One fetched hourly frame (`fetchWindborneFrame` result): tag, nominal
epoch-millisecond timestamp, raw payload and record count. ISO instants
are modelled by the epoch milliseconds they denote (the `toISOString` /
`new Date` round-trip is injective and order-preserving). -/
structure Frame where
  hourTag : String
  timestamp : Int
  raw : JSVal
  recordCount : Nat
deriving Repr

/-- Normalized position sample (`normalizeBalloon` result). `lat`/`lon`
are `Option ℚ` because `extractCoordinates`/`pickNumber` return either a
finite number or JS `null` (modelled `none`). -/
structure Sample where
  balloonId : String
  timestamp : Int
  hourTag : String
  lat : Option ℚ
  lon : Option ℚ
  altitude : Option ℚ
  speed : Option ℚ
  bearing : Option ℚ
  raw : JSVal
deriving Repr

/-- Model of `pickNumber(...candidates)`: first candidate whose `Number(…)`
coercion is finite, else JS `null` (`none`). -/
def pickNumber (cands : List JSVal) : Option ℚ :=
  cands.findSome? (fun c =>
    match toNumber c with
    | .fin q => some q
    | _ => none)

/-- Value of a `||` chain over candidates: the first truthy one.  When all
candidates are falsy the JS chain yields its last operand; every falsy
operand behaves exactly like `undefined` under the property accesses and
`Array.isArray` tests applied to the chain's value, so `undefined` is
used as the fallback. -/
def firstTruthy (cands : List JSVal) : JSVal :=
  (cands.find? toBool).getD .undefined

/-- Re-inject a `pickNumber` result into the JS value world (`null` for
`none`), for the `isFinite` gate of the normalizer. -/
def optToJS : Option ℚ → JSVal
  | some q => .num (.fin q)
  | none => .null

/-- Model of `extractCoordinates(entry)` from the source: probe flat field names,
a nested location object, and (for array-shaped locations) the
GeoJSON-style `[lon, lat]` positions. -/
def extractCoordinates (entry : JSVal) : Option ℚ × Option ℚ :=
  let location := firstTruthy [getField entry "location", getField entry "position",
    getField entry "coordinates", getField entry "coord", getField entry "coords"]
  let lat := pickNumber [getField entry "lat", getField entry "latitude",
    optChain location "lat", optChain location "latitude",
    match location with
    | .arr xs => jsIndex xs 1
    | _ => .null]
  let lon := pickNumber [getField entry "lon", getField entry "lng",
    getField entry "longitude",
    optChain location "lon", optChain location "lng", optChain location "longitude",
    match location with
    | .arr xs => jsIndex xs 0
    | _ => .null]
  (lat, lon)

/-- Truncation toward zero, as in the ECMAScript time-value clip applied
by `new Date(number)`. -/
def ratTrunc (q : ℚ) : Int := q.num / (q.den : Int)

/-- Model of `new Date(v).getTime()` as an optional epoch-millisecond instant;
`none` is an invalid date.  `new Date(null)` is the epoch, numbers are
truncated, and string parsing is modelled as invalid (both feeds carry
instants as epoch-millisecond numbers; a bare digit string is indeed an
invalid date string in JS). -/
def jsDateMs : JSVal → Option Int
  | .null => some 0
  | .undefined => none
  | .num (.fin q) => some (ratTrunc q)
  | .num _ => none
  | .bool true => some 1
  | .bool false => some 0
  | .str _ => none
  | .arr _ => none
  | .obj _ => none

/-- Model of `parseTimestamp(value)` from the source: falsy values are rejected
up front, then the value is parsed as a date (`none` both for the falsy
gate and an invalid date, which the source renders as `null`). -/
def parseTimestamp (v : JSVal) : Option Int :=
  if toBool v then jsDateMs v else none

/-- Model of `normalizeBalloon(entry, frame, idx)` translated clause by clause:
the bare-array shape uses `Number.isFinite` on the first two entries,
the object shape probes identifier aliases, extracts coordinates, and
gates them with the *global* `isFinite` on the `pickNumber` results. -/
def normalizeBalloon (entry : JSVal) (frame : Frame) (idx : Nat) : Option Sample :=
  if !toBool entry then none else
  match entry with
  | .arr xs =>
      let lat := toNumber (jsIndex xs 0)
      let lon := toNumber (jsIndex xs 1)
      let altitude := toNumber (jsIndex xs 2)
      match lat, lon with
      | .fin la, .fin lo =>
          some { balloonId := "coord-" ++ frame.hourTag ++ "-" ++ toString idx
                 timestamp := frame.timestamp
                 hourTag := frame.hourTag
                 lat := some la
                 lon := some lo
                 altitude := match altitude with | .fin a => some a | _ => none
                 speed := none
                 bearing := none
                 raw := .obj [("lat", jsIndex xs 0), ("lon", jsIndex xs 1),
                              ("altitude", jsIndex xs 2)] }
      | _, _ => none
  | .obj fields =>
      let idCand := firstTruthy [getField (.obj fields) "id",
        getField (.obj fields) "balloonId", getField (.obj fields) "callsign",
        getField (.obj fields) "name", getField (.obj fields) "serial",
        getField (.obj fields) "device"]
      let balloonId := if toBool idCand then idCand
        else .str ("unknown-" ++ frame.hourTag ++ "-" ++ toString idx)
      let coords := extractCoordinates (.obj fields)
      if !globalIsFinite (optToJS coords.1) || !globalIsFinite (optToJS coords.2)
      then none else
      let altitude := pickNumber [getField (.obj fields) "altitude",
        getField (.obj fields) "alt", getField (.obj fields) "elevation",
        getField (.obj fields) "height"]
      let speed := pickNumber [getField (.obj fields) "speed",
        getField (.obj fields) "vel", getField (.obj fields) "velocity"]
      let bearing := pickNumber [getField (.obj fields) "bearing",
        getField (.obj fields) "heading", getField (.obj fields) "course"]
      let ts := (parseTimestamp (getField (.obj fields) "timestamp")).orElse (fun _ =>
        (parseTimestamp (getField (.obj fields) "time")).orElse (fun _ =>
        (parseTimestamp (getField (.obj fields) "recorded_at")).orElse (fun _ =>
        parseTimestamp (getField (.obj fields) "ts"))))
      some { balloonId := jsToString balloonId
             timestamp := ts.getD frame.timestamp
             hourTag := frame.hourTag
             lat := coords.1
             lon := coords.2
             altitude := altitude
             speed := speed
             bearing := bearing
             raw := .obj fields }
  | _ => none

/-- Normalized earthquake record (`fetchEarthquakes` element).
`occurredAt` is an epoch-millisecond instant: the source renders it with
`toISOString()`, which THROWS on an invalid date, so a constructed event
always carries a valid instant (see `quakeOfFeature`). `coordinates`
keeps the raw GeoJSON `[lon, lat, …]` array (`none` when the feature's
coordinates are not an array). -/
structure GeoEvent where
  id : JSVal
  magnitude : JSVal
  place : JSVal
  occurredAt : Int
  url : JSVal
  coordinates : Option (List JSVal)
deriving Repr

/-- Nearest-earthquake link: the chosen event spread together with the
distance rounded by `Number(distance.toFixed(1))`. -/
structure QuakeLink where
  quake : GeoEvent
  distanceKm : ℚ
deriving Repr

/-- Finalized per-entity track (`finalizeBalloonTrack` result).
`latest` is optional to mirror the joiner's own `if (!latest)` guard;
`nearestEarthquake` distinguishes an absent JS field (`none`) from a
field present with value `null` (`some none`). -/
structure Balloon where
  balloonId : String
  track : List Sample
  latest : Option Sample
  firstSeen : Int
  lastSeen : Int
  totalDistanceKm : ℚ
  altitudeDelta : ℚ
  sampleCount : Nat
  nearestEarthquake : Option (Option QuakeLink)
deriving Repr

/-- Pre-finalization group of one entity's samples (the values of the
`trackMap` in `buildBalloonTracks`). -/
structure RawTrack where
  balloonId : String
  track : List Sample
deriving Repr

/-- Round-half-up at the integers, matching `toFixed`'s tie rule ("pick
the larger n"). -/
def roundHalfUp (q : ℚ) : Int := Int.floor (q + 1 / 2)

/-- Model of `Number(x.toFixed(1))`. -/
def toFixed1 (q : ℚ) : ℚ := (roundHalfUp (q * 10) : ℚ) / 10

/-- Model of `Number(x.toFixed(2))`. -/
def toFixed2 (q : ℚ) : ℚ := (roundHalfUp (q * 100) : ℚ) / 100

/-- Stable insertion of a sample into a chronologically sorted list: the
new sample goes after every sample whose timestamp is `≤` its own.  The
source sorts with the comparator
`new Date(a.timestamp) - new Date(b.timestamp)`; ECMAScript
`Array.prototype.sort` is a stable sort, which insertion from the left
realizes. -/
def insertSample (s : Sample) : List Sample → List Sample
  | [] => [s]
  | t :: ts => if t.timestamp ≤ s.timestamp
      then t :: insertSample s ts
      else s :: t :: ts

/-- The stable ascending-by-timestamp sort applied by
`finalizeBalloonTrack`. -/
def sortByTs (l : List Sample) : List Sample :=
  l.foldl (fun acc s => insertSample s acc) []

/-- Model of `computePathDistance(points)`: haversine-sum over consecutive pairs,
with the source's defensive `isFinite` skip (again the *global*
`isFinite`, which is also true on `null` coordinates).  `d` stands for
`haversineKm` on the two samples' coordinates. -/
def computePathDistance (d : Sample → Sample → ℚ) : List Sample → ℚ
  | [] => 0
  | p :: rest =>
      match rest with
      | [] => 0
      | c :: _ =>
          (if !globalIsFinite (optToJS p.lat) || !globalIsFinite (optToJS p.lon)
              || !globalIsFinite (optToJS c.lat) || !globalIsFinite (optToJS c.lon)
           then 0 else d p c) + computePathDistance d rest
termination_by structural l => l

/-- Model of `finalizeBalloonTrack(trackObj)`: empty groups yield `null`; the
track is sorted chronologically (the empty check is equivalently read
off the sort result, since sorting preserves emptiness), and the derived
fields are recomputed from the sorted samples. -/
def finalizeBalloonTrack (d : Sample → Sample → ℚ) (trackObj : RawTrack) :
    Option Balloon :=
  match sortByTs trackObj.track with
  | [] => none
  | s :: rest =>
      let latest := (s :: rest).getLast (List.cons_ne_nil s rest)
      some { balloonId := trackObj.balloonId
             track := s :: rest
             latest := some latest
             firstSeen := s.timestamp
             lastSeen := latest.timestamp
             totalDistanceKm := toFixed2 (computePathDistance d (s :: rest))
             altitudeDelta := latest.altitude.getD 0 - s.altitude.getD 0
             sampleCount := (s :: rest).length
             nearestEarthquake := none }

/-- Model of `trackMap.get(id) || {…}; …track.push(…); trackMap.set(id, …)`:
upsert into the insertion-ordered map (a JS `Map` keeps first-insertion
key order; `set` on an existing key updates in place). -/
def pushSample (s : Sample) : List RawTrack → List RawTrack
  | [] => [{ balloonId := s.balloonId, track := [s] }]
  | t :: ts =>
      if t.balloonId == s.balloonId
      then { balloonId := t.balloonId, track := t.track ++ [s] } :: ts
      else t :: pushSample s ts

/-- One frame's contribution to the track map: unwrap its raw payload,
normalize each entry with its positional index, drop the `none`s. -/
def ingestFrame (m : List RawTrack) (frame : Frame) : List RawTrack :=
  (unwrapEntries frame.raw).enum.foldl (fun acc p =>
    match normalizeBalloon p.2 frame p.1 with
    | none => acc
    | some s => pushSample s acc) m

/-- Model of `buildBalloonTracks(frames)`: group across frames, finalize each
group, keep the non-`null` results (`.map(finalizeBalloonTrack)
.filter(Boolean)` is exactly `filterMap`). -/
def buildBalloonTracks (d : Sample → Sample → ℚ) (frames : List Frame) :
    List Balloon :=
  (frames.foldl ingestFrame []).filterMap (finalizeBalloonTrack d)

/-- Model of `distance < bestDistance` where `none` models the initial
`Infinity`. -/
def ltBest (dist : ℚ) : Option ℚ → Bool
  | none => true
  | some best => decide (dist < best)

/-- Body of the `earthquakes.forEach` scan in `attachNearestEarthquake`:
on a strict improvement the running best is replaced (the stored link
carries the `toFixed(1)`-rounded distance, the comparison uses the raw
distance). -/
def scanStep (d1 : GeoEvent → ℚ) (st : Option QuakeLink × Option ℚ)
    (quake : GeoEvent) : Option QuakeLink × Option ℚ :=
  let dist := d1 quake
  if ltBest dist st.2
  then (some { quake := quake, distanceKm := toFixed1 dist }, some dist)
  else st

/-- The per-balloon body of `balloons.map(…)` in
`attachNearestEarthquake`: balloons without a latest sample pass through
untouched, otherwise the linear scan's winner is attached.  `d` stands
for `haversineKm` from an event's `[lon, lat]` to the sample's
coordinates. -/
def attachQuakeToBalloon (d : GeoEvent → Sample → ℚ) (earthquakes : List GeoEvent)
    (balloon : Balloon) : Balloon :=
  match balloon.latest with
  | none => balloon
  | some latest =>
      { balloon with
          nearestEarthquake :=
            some (earthquakes.foldl (scanStep (fun q => d q latest))
              (none, none)).1 }

/-- Model of `attachNearestEarthquake(balloons, earthquakes)`: an empty event
list returns the balloons unchanged (no field attached at all). -/
def attachNearestEarthquake (d : GeoEvent → Sample → ℚ) (balloons : List Balloon)
    (earthquakes : List GeoEvent) : List Balloon :=
  match earthquakes with
  | [] => balloons
  | _ => balloons.map (attachQuakeToBalloon d earthquakes)

/-- Per-feature body of the `.map` in `fetchEarthquakes`.  Property
access on a nullish feature throws, and
`new Date(feature.properties?.time).toISOString()` throws a
`RangeError` when the parsed date is invalid (absent or unparseable
`time`); both throws escape the `.map` and are modelled as `.error`. -/
def quakeOfFeature (feature : JSVal) : Except Unit GeoEvent :=
  match feature with
  | .null => .error ()
  | .undefined => .error ()
  | _ =>
      let props := getField feature "properties"
      match jsDateMs (optChain props "time") with
      | none => .error ()
      | some ms =>
          .ok { id := getField feature "id"
                magnitude := nullish (optChain props "mag") .null
                place := nullish (optChain props "place") (.str "Unknown")
                occurredAt := ms
                url := optChain props "url"
                coordinates :=
                  match optChain (getField feature "geometry") "coordinates" with
                  | .arr xs => some xs
                  | _ => none }

/-- The post-map filter of `fetchEarthquakes`:
`Array.isArray(quake.coordinates) && quake.coordinates.length >= 2`. -/
def coordsOk (quake : GeoEvent) : Bool :=
  match quake.coordinates with
  | some xs => decide (2 ≤ xs.length)
  | none => false

/-- Model of `fetchEarthquakes()` given the fetched payload (`none` models a
failed/timed-out fetch).  Any exception inside the `try` — including the
`RangeError` from a feature with an invalid occurrence time — is caught
and yields the empty list. -/
def fetchEarthquakes (response : Option JSVal) : List GeoEvent :=
  match response with
  | none => []
  | some payload =>
      match getField payload "features" with
      | .arr features =>
          match features.mapM quakeOfFeature with
          | .error _ => []
          | .ok quakes => quakes.filter coordsOk
      | _ => []

/-- Cache metadata (`cache.meta`). -/
structure Meta where
  lastRefresh : Option String
  etag : String
  datasetNote : String
deriving Repr

/-- The per-frame projection served by `/api/constellation`
(`{ hourTag, timestamp, recordCount }`). -/
structure FrameMeta where
  hourTag : String
  timestamp : Int
  recordCount : Nat
deriving Repr

/-- A stored inquiry (`cache.questions` entry / the `received`
acknowledgment).  `receivedAt` is the epoch-millisecond instant rendered
by `new Date().toISOString()`. -/
structure QEntry where
  id : String
  message : String
  contact : String
  receivedAt : Nat
deriving Repr

/-- The server's published cache object. -/
structure Cache where
  frames : List Frame
  balloons : List Balloon
  earthquakes : List GeoEvent
  meta : Meta
  questions : List QEntry
deriving Repr

/-- Response body of `/api/constellation`. -/
structure ConstellationBody where
  balloons : List Balloon
  frames : List FrameMeta
  earthquakes : List GeoEvent
  meta : Meta
deriving Repr

/-- The frame projection used by the constellation route. -/
def frameMeta (f : Frame) : FrameMeta :=
  { hourTag := f.hourTag, timestamp := f.timestamp, recordCount := f.recordCount }

/-- Model of `GET /api/constellation`: a matching `If-None-Match` header yields
`304` (`none`); otherwise the body holds the full balloon collection,
the frame projections, the first ten earthquakes (`slice(0, 10)`), and
the metadata. -/
def getConstellation (c : Cache) (ifNoneMatch : Option String) :
    Option ConstellationBody :=
  if ifNoneMatch = some c.meta.etag then none
  else some { balloons := c.balloons
              frames := c.frames.map frameMeta
              earthquakes := c.earthquakes.take 10
              meta := c.meta }

/-- Model of `GET /api/earthquakes`: the entire current event collection plus
metadata. -/
def getEarthquakesRoute (c : Cache) : List GeoEvent × Meta :=
  (c.earthquakes, c.meta)

/-- Outcome of `POST /api/questions`. -/
inductive QuestionResult where
  | badRequest (error : String)
  | accepted (entry : QEntry)
deriving Repr

/-- Digit character for `toString(36)` (0-9 then a-z). -/
def base36Char (d : Nat) : Char :=
  if d < 10 then Char.ofNat (48 + d) else Char.ofNat (87 + d)

/-- Accumulator loop for `Number.prototype.toString(36)`. -/
def toBase36Go (n : Nat) (acc : List Char) : List Char :=
  if h : n < 36 then base36Char n :: acc
  else toBase36Go (n / 36) (base36Char (n % 36) :: acc)
decreasing_by
  exact Nat.div_lt_self (by omega) (by omega)

/-- Model of `n.toString(36)` for a nonnegative integer (the identifier generator
`Date.now().toString(36)`). -/
def toBase36 (n : Nat) : String := String.mk (toBase36Go n [])

/-- Model of `typeof v === 'string'`. -/
def isString : JSVal → Bool
  | .str _ => true
  | _ => false

/-- The string payload of a JS value already known to be a string. -/
def strVal : JSVal → String
  | .str s => s
  | _ => ""

/-- Model of `String.prototype.trim()`: drop leading and trailing whitespace
(structural model of the library routine). -/
def jsTrim (s : String) : String :=
  String.mk (((s.data.dropWhile Char.isWhitespace).reverse.dropWhile
    Char.isWhitespace).reverse)

/-- The `message` field the inquiry route destructures from
`req.body || {}`. -/
def msgField (body : JSVal) : JSVal :=
  getField (if toBool body then body else .obj []) "message"

/-- The `contact` field the inquiry route destructures from
`req.body || {}`. -/
def contactField (body : JSVal) : JSVal :=
  getField (if toBool body then body else .obj []) "contact"

/-- Model of `POST /api/questions` handler: destructure `req.body || {}`, the two
truthy string gates in source order, then the acknowledgment entry with
the base-36 identifier of the current instant and trimmed fields. -/
def postQuestions (body : JSVal) (nowMs : Nat) : QuestionResult :=
  let message := msgField body
  let contact := contactField body
  if !toBool message || !isString message then
    .badRequest "Missing question text in \"message\""
  else if !toBool contact || !isString contact then
    .badRequest "Please include contact info in \"contact\""
  else
    .accepted { id := toBase36 nowMs
                message := jsTrim (strVal message)
                contact := jsTrim (strVal contact)
                receivedAt := nowMs }

/-- Modelled from the spec: "computes cumulative distance by
haversine-summing each consecutive valid-coordinate pair" — the plain
sum of `d` over consecutive pairs, to be compared with the source's
`computePathDistance`. -/
def consecPairSum (d : Sample → Sample → ℚ) : List Sample → ℚ
  | [] => 0
  | a :: rest =>
      match rest with
      | [] => 0
      | b :: _ => d a b + consecPairSum d rest
termination_by structural l => l

/-- Timestamp order on samples (the sort key of `finalizeBalloonTrack`).
-/
def tsLE (a b : Sample) : Prop := a.timestamp ≤ b.timestamp

/-- Truthy-nonempty-string test equivalent to the inquiry route's
`value && typeof value === 'string'` gate. -/
def validText (v : JSVal) : Bool := toBool v && isString v

/-- Proof-side characterization of the nearest-event scan: the running
winner after seeing `cur` and then the remaining events, replaced only
on a strict improvement. -/
def bestQuake (d1 : GeoEvent → ℚ) (cur : GeoEvent) : List GeoEvent → GeoEvent
  | [] => cur
  | q :: qs => if d1 q < d1 cur then bestQuake d1 q qs else bestQuake d1 cur qs

/-- Degenerate distance function (concrete instances for witnesses). -/
def dZero : Sample → Sample → ℚ := fun _ _ => 0

/-- Constant distance `1/3`, exposing the `toFixed(2)` rounding of the
published cumulative distance. -/
def dThird : Sample → Sample → ℚ := fun _ _ => 1 / 3

/-- Event-to-sample distance read off the event's instant (a concrete
metric for witnesses). -/
def dOcc : GeoEvent → Sample → ℚ := fun q _ => (q.occurredAt : ℚ)

/-- Object record with an identifier but no coordinate fields: its
latitude probes end in the literal `null` candidate, and
`Number(null) = 0`. -/
def entryNoCoords : JSVal := .obj [("id", .str "b1")]

/-- Object record whose `location` is an (empty) array: every latitude
probe misses, `pickNumber` returns `null`, and the global-`isFinite`
gate still passes. -/
def entryEmptyLoc : JSVal := .obj [("location", .arr [])]

/-- A frame carrying the two problematic records above. -/
def frameZero : Frame :=
  { hourTag := "00", timestamp := 1000, raw := .arr [entryEmptyLoc, entryNoCoords],
    recordCount := 2 }

/-- The sample the normalizer builds from `entryEmptyLoc` — with `null`
coordinates. -/
def badSample : Sample :=
  { balloonId := "unknown-00-0", timestamp := 1000, hourTag := "00",
    lat := none, lon := none, altitude := none, speed := none, bearing := none,
    raw := entryEmptyLoc }

/-- The sample the normalizer builds from `entryNoCoords` — pinned to
latitude/longitude 0. -/
def zeroSample : Sample :=
  { balloonId := "b1", timestamp := 1000, hourTag := "00",
    lat := some 0, lon := some 0, altitude := none, speed := none, bearing := none,
    raw := entryNoCoords }

/-- The finalized track holding `badSample`. -/
def builtBad : Balloon :=
  { balloonId := "unknown-00-0", track := [badSample], latest := some badSample,
    firstSeen := 1000, lastSeen := 1000, totalDistanceKm := toFixed2 0,
    altitudeDelta := (0 : ℚ) - 0, sampleCount := 1, nearestEarthquake := none }

/-- The finalized track holding `zeroSample`. -/
def builtZero : Balloon :=
  { balloonId := "b1", track := [zeroSample], latest := some zeroSample,
    firstSeen := 1000, lastSeen := 1000, totalDistanceKm := toFixed2 0,
    altitudeDelta := (0 : ℚ) - 0, sampleCount := 1, nearestEarthquake := none }

/-- Concrete sample with the later timestamp. -/
def sampleLate : Sample :=
  { balloonId := "b", timestamp := 2, hourTag := "00", lat := some 1, lon := some 2,
    altitude := none, speed := none, bearing := none, raw := .null }

/-- Concrete sample with the earlier timestamp. -/
def sampleEarly : Sample :=
  { balloonId := "b", timestamp := 1, hourTag := "00", lat := some 3, lon := some 4,
    altitude := none, speed := none, bearing := none, raw := .null }

/-- A two-sample group arriving out of chronological order. -/
def trPair : RawTrack := { balloonId := "b", track := [sampleLate, sampleEarly] }

/-- Expected value of `finalizeBalloonTrack dThird trPair`: chronologically sorted, with
the `toFixed(2)`-rounded path distance (which evaluates to `0.33`, see
the C4 counterexample). -/
def balloonPair : Balloon :=
  { balloonId := "b", track := [sampleEarly, sampleLate], latest := some sampleLate,
    firstSeen := 1, lastSeen := 2,
    totalDistanceKm := toFixed2 (computePathDistance dThird [sampleEarly, sampleLate]),
    altitudeDelta := (0 : ℚ) - 0,
    sampleCount := 2, nearestEarthquake := none }

/-- Concrete event at instant 5 (so `dOcc`-distance 5). -/
def ev1 : GeoEvent :=
  { id := .str "e1", magnitude := .null, place := .str "A", occurredAt := 5,
    url := .undefined, coordinates := some [.num (.fin 1), .num (.fin 2)] }

/-- Concrete event at instant 3 (so `dOcc`-distance 3 — the strictly
closer, later-encountered event). -/
def ev2 : GeoEvent :=
  { id := .str "e2", magnitude := .null, place := .str "B", occurredAt := 3,
    url := .undefined, coordinates := some [.num (.fin 3), .num (.fin 4)] }

/-- Well-formed USGS-style feature, `time` present as epoch millis. -/
def goodFeature : JSVal := .obj [("id", .str "q1"),
  ("properties", .obj [("mag", .num (.fin 5)), ("place", .str "X"),
    ("time", .num (.fin 1700)), ("url", .str "u")]),
  ("geometry", .obj [("coordinates", .arr [.num (.fin 1), .num (.fin 2)])])]

/-- Feature with valid coordinates but no `time` field: rendering its
occurrence instant throws. -/
def badFeature : JSVal := .obj [("id", .str "q2"),
  ("properties", .obj [("mag", .num (.fin 3)), ("place", .str "Y")]),
  ("geometry", .obj [("coordinates", .arr [.num (.fin 3), .num (.fin 4)])])]

/-- Feed payload holding one good and one bad-time feature. -/
def payloadMixed : JSVal := .obj [("features", .arr [goodFeature, badFeature])]

/-- Feed payload holding only the good feature. -/
def payloadGoodOnly : JSVal := .obj [("features", .arr [goodFeature])]

/-- The event normalized from `goodFeature`. -/
def goodEvent : GeoEvent :=
  { id := .str "q1", magnitude := .num (.fin 5), place := .str "X",
    occurredAt := 1700, url := .str "u",
    coordinates := some [.num (.fin 1), .num (.fin 2)] }

/-- Valid inquiry body (message needs trimming). -/
def goodBody : JSVal := .obj [("message", .str " hi "), ("contact", .str "x@y")]

/-- Inquiry body with the message missing. -/
def badBodyNoMsg : JSVal := .obj [("contact", .str "x@y")]

/-- Concrete cache metadata. -/
def metaEx : Meta := { lastRefresh := none, etag := "e1", datasetNote := "n" }

/-- Concrete cache with two events and one balloon. -/
def cacheEx : Cache :=
  { frames := [], balloons := [balloonPair], earthquakes := [ev1, ev2],
    meta := metaEx, questions := [] }

/-- Expected `/api/constellation` body for `cacheEx`. -/
def constBodyEx : ConstellationBody :=
  { balloons := [balloonPair], frames := [], earthquakes := [ev1, ev2],
    meta := metaEx }

/-- Membership in an insertion is membership in the old list or being
the inserted sample. -/
theorem mem_insertSample {s x : Sample} {l : List Sample} :
    x ∈ insertSample s l ↔ x = s ∨ x ∈ l := by
  induction l with
  | nil => simp [insertSample]
  | cons t ts ih =>
      by_cases h : t.timestamp ≤ s.timestamp
      · simp only [insertSample, if_pos h, List.mem_cons, ih]
        tauto
      · simp only [insertSample, if_neg h, List.mem_cons]

/-- Insertion preserves chronological sortedness. -/
theorem pairwise_insertSample {s : Sample} {l : List Sample}
    (h : l.Pairwise tsLE) : (insertSample s l).Pairwise tsLE := by
  induction l with
  | nil => simp [insertSample, tsLE]
  | cons t ts ih =>
      rcases List.pairwise_cons.mp h with ⟨hts, htail⟩
      by_cases hc : t.timestamp ≤ s.timestamp
      · simp only [insertSample, if_pos hc]
        refine List.pairwise_cons.mpr ⟨?_, ih htail⟩
        intro y hy
        rcases mem_insertSample.mp hy with rfl | hmem
        · exact hc
        · exact hts y hmem
      · simp only [insertSample, if_neg hc]
        refine List.pairwise_cons.mpr ⟨?_, h⟩
        intro y hy
        rcases List.mem_cons.mp hy with rfl | hmem
        · exact le_of_lt (lt_of_not_le hc)
        · exact le_trans (le_of_lt (lt_of_not_le hc)) (hts y hmem)

/-- In a sorted list whose every element sits strictly after `t`, nothing
matches timestamp `t`. -/
theorem filter_ts_eq_nil {t : Int} {l : List Sample}
    (h : ∀ x ∈ l, t < x.timestamp) :
    l.filter (fun x => x.timestamp == t) = [] := by
  induction l with
  | nil => rfl
  | cons u us ih =>
      have hu : ¬(u.timestamp == t) = true := by
        simp only [beq_iff_eq]
        exact fun he => absurd he (ne_of_gt (h u (List.mem_cons_self u us)))
      simp only [List.filter_cons, if_neg hu]
      exact ih (fun x hx => h x (List.mem_cons_of_mem u hx))

/-- Inserting a sample with timestamp `t` into a sorted list appends it
after every existing sample with timestamp `t`. -/
theorem filter_insertSample_eq {t : Int} {s : Sample} {l : List Sample}
    (hsort : l.Pairwise tsLE) (hs : s.timestamp = t) :
    (insertSample s l).filter (fun x => x.timestamp == t)
      = l.filter (fun x => x.timestamp == t) ++ [s] := by
  induction l with
  | nil => simp [insertSample, hs]
  | cons u us ih =>
      rcases List.pairwise_cons.mp hsort with ⟨hus, htail⟩
      by_cases hc : u.timestamp ≤ s.timestamp
      · simp only [insertSample, if_pos hc, List.filter_cons]
        by_cases hu : (u.timestamp == t) = true
        · simp only [if_pos hu, ih htail, List.cons_append]
        · simp only [if_neg hu, ih htail]
      · have hgt : t < u.timestamp := by
          rw [← hs]; exact lt_of_not_le hc
        have hnone : (u :: us).filter (fun x => x.timestamp == t) = [] := by
          refine filter_ts_eq_nil ?_
          intro x hx
          rcases List.mem_cons.mp hx with rfl | hmem
          · exact hgt
          · exact lt_of_lt_of_le hgt (hus x hmem)
        simp only [insertSample, if_neg hc, List.filter_cons, hnone]
        simp [hs]

/-- Inserting a sample with a different timestamp leaves the
`t`-filtered sublist untouched. -/
theorem filter_insertSample_ne {t : Int} {s : Sample} {l : List Sample}
    (hs : s.timestamp ≠ t) :
    (insertSample s l).filter (fun x => x.timestamp == t)
      = l.filter (fun x => x.timestamp == t) := by
  have hsb : ¬(s.timestamp == t) = true := by simpa using hs
  induction l with
  | nil => simp [insertSample, hsb]
  | cons u us ih =>
      by_cases hc : u.timestamp ≤ s.timestamp
      · simp only [insertSample, if_pos hc, List.filter_cons, ih]
      · simp only [insertSample, if_neg hc, List.filter_cons, if_neg hsb]

/-- The insertion-sort fold: starting from a sorted accumulator it stays
sorted, and per-timestamp sublists concatenate (accumulator first, then
the processed input in order) — joint statement for the induction. -/
theorem foldl_insert_sorted_filter (l : List Sample) :
    ∀ acc : List Sample, acc.Pairwise tsLE →
      (l.foldl (fun a s => insertSample s a) acc).Pairwise tsLE ∧
      ∀ t : Int,
        (l.foldl (fun a s => insertSample s a) acc).filter
            (fun x => x.timestamp == t)
          = acc.filter (fun x => x.timestamp == t)
            ++ l.filter (fun x => x.timestamp == t) := by
  induction l with
  | nil => intro acc hacc; exact ⟨hacc, fun t => by simp⟩
  | cons s rest ih =>
      intro acc hacc
      rcases ih (insertSample s acc) (pairwise_insertSample hacc) with ⟨h1, h2⟩
      refine ⟨h1, ?_⟩
      intro t
      by_cases hs : s.timestamp = t
      · have := filter_insertSample_eq hacc hs
        simp only [List.foldl_cons, h2 t, this, List.filter_cons]
        simp [hs, List.append_assoc]
      · have := filter_insertSample_ne (l := acc) hs
        have hsb : ¬(s.timestamp == t) = true := by simpa using hs
        simp only [List.foldl_cons, h2 t, this, List.filter_cons, if_neg hsb]

/-- Sortedness: `sortByTs` sorts chronologically. -/
theorem sortByTs_pairwise (l : List Sample) : (sortByTs l).Pairwise tsLE :=
  (foldl_insert_sorted_filter l [] (by simp)).1

/-- Stability: `sortByTs` is stable: samples with any fixed timestamp keep their
original relative order. -/
theorem sortByTs_filter (l : List Sample) (t : Int) :
    (sortByTs l).filter (fun x => x.timestamp == t)
      = l.filter (fun x => x.timestamp == t) := by
  have := (foldl_insert_sorted_filter l [] (by simp)).2 t
  simpa [sortByTs] using this

/-- Everything `finalizeBalloonTrack` guarantees about a produced track:
sorted sample list, nonemptiness, and derived fields recomputed from the
sorted samples. -/
theorem finalize_spec {d : Sample → Sample → ℚ} {tr : RawTrack} {b : Balloon}
    (h : finalizeBalloonTrack d tr = some b) :
    b.track = sortByTs tr.track ∧ b.track ≠ [] ∧
    b.sampleCount = b.track.length ∧ b.latest = b.track.getLast? ∧
    (∃ f, b.track.head? = some f ∧ b.firstSeen = f.timestamp) ∧
    (∃ lz, b.track.getLast? = some lz ∧ b.lastSeen = lz.timestamp) ∧
    b.nearestEarthquake = none ∧
    b.totalDistanceKm = toFixed2 (computePathDistance d b.track) := by
  unfold finalizeBalloonTrack at h
  cases hs : sortByTs tr.track with
  | nil => rw [hs] at h; exact absurd h (by simp)
  | cons s rest =>
      rw [hs] at h
      have hb := Option.some.inj h
      subst hb
      have hlast := List.getLast?_eq_getLast_of_ne_nil (List.cons_ne_nil s rest)
      refine ⟨rfl, List.cons_ne_nil s rest, rfl, hlast.symm, ⟨s, rfl, rfl⟩,
        ⟨(s :: rest).getLast (List.cons_ne_nil s rest), hlast, rfl⟩, rfl, rfl⟩

/-- The defensive `isFinite` skip in `computePathDistance` is dead code:
the global `isFinite` is true on every value `pickNumber` can produce
(a finite number or `null`). -/
theorem globalIsFinite_optToJS (o : Option ℚ) :
    globalIsFinite (optToJS o) = true := by
  cases o <;> rfl

/-- Equivalence: `computePathDistance` is exactly the consecutive-pair sum: no pair
is ever skipped. -/
theorem computePathDistance_eq_consecPairSum (d : Sample → Sample → ℚ) :
    ∀ l : List Sample, computePathDistance d l = consecPairSum d l := by
  intro l
  induction l with
  | nil => rfl
  | cons a rest ih =>
      cases rest with
      | nil => rfl
      | cons b tl =>
          have h1 : computePathDistance d (a :: b :: tl)
              = (if !globalIsFinite (optToJS a.lat) || !globalIsFinite (optToJS a.lon)
                    || !globalIsFinite (optToJS b.lat) || !globalIsFinite (optToJS b.lon)
                 then 0 else d a b) + computePathDistance d (b :: tl) := rfl
          have h2 : consecPairSum d (a :: b :: tl)
              = d a b + consecPairSum d (b :: tl) := rfl
          rw [h1, h2, ih]
          simp [globalIsFinite_optToJS]

/-- Unfolding of the joiner's fold once a candidate best is installed:
the final winner is `bestQuake` of the current best and the remaining
events. -/
theorem foldl_scanStep_some (d1 : GeoEvent → ℚ) :
    ∀ (evs : List GeoEvent) (cur : GeoEvent),
      evs.foldl (scanStep d1)
          (some ⟨cur, toFixed1 (d1 cur)⟩, some (d1 cur))
        = (some ⟨bestQuake d1 cur evs, toFixed1 (d1 (bestQuake d1 cur evs))⟩,
           some (d1 (bestQuake d1 cur evs))) := by
  intro evs
  induction evs with
  | nil => intro cur; rfl
  | cons q qs ih =>
      intro cur
      by_cases h : d1 q < d1 cur
      · have hlt : ltBest (d1 q) (some (d1 cur)) = true := by
          simp [ltBest, h]
        simp only [List.foldl_cons, scanStep, hlt, if_true, bestQuake, if_pos h]
        exact ih q
      · have hlt : ltBest (d1 q) (some (d1 cur)) = false := by
          simp [ltBest, h]
        simp only [List.foldl_cons, scanStep, hlt, Bool.false_eq_true, if_false,
          bestQuake, if_neg h]
        exact ih cur

/-- From the initial `(null, Infinity)` state the first event is always
installed, and the fold computes `bestQuake` of the rest. -/
theorem foldl_scanStep_start (d1 : GeoEvent → ℚ) (q : GeoEvent)
    (qs : List GeoEvent) :
    (q :: qs).foldl (scanStep d1) (none, none)
      = (some ⟨bestQuake d1 q qs, toFixed1 (d1 (bestQuake d1 q qs))⟩,
         some (d1 (bestQuake d1 q qs))) := by
  have h0 : scanStep d1 (none, none) q
      = (some ⟨q, toFixed1 (d1 q)⟩, some (d1 q)) := rfl
  simp only [List.foldl_cons, h0, foldl_scanStep_some]

/-- The scan winner never beats the incumbent by more than the
incumbent's own distance. -/
theorem bestQuake_le (d1 : GeoEvent → ℚ) :
    ∀ (evs : List GeoEvent) (cur : GeoEvent),
      d1 (bestQuake d1 cur evs) ≤ d1 cur := by
  intro evs
  induction evs with
  | nil => intro cur; exact le_refl _
  | cons q qs ih =>
      intro cur
      by_cases h : d1 q < d1 cur
      · simp only [bestQuake, if_pos h]
        exact le_trans (ih q) (le_of_lt h)
      · simp only [bestQuake, if_neg h]
        exact ih cur

/-- Position of the scan winner: the input splits around it, everything
encountered before it is strictly farther, everything after it is no
closer — i.e. the winner is the first event attaining the minimum. -/
theorem bestQuake_split (d1 : GeoEvent → ℚ) :
    ∀ (evs : List GeoEvent) (cur : GeoEvent),
      ∃ l1 l2, cur :: evs = l1 ++ bestQuake d1 cur evs :: l2 ∧
        (∀ x ∈ l1, d1 (bestQuake d1 cur evs) < d1 x) ∧
        (∀ x ∈ l2, d1 (bestQuake d1 cur evs) ≤ d1 x) := by
  intro evs
  induction evs with
  | nil =>
      intro cur
      exact ⟨[], [], by simp [bestQuake], by simp, by simp⟩
  | cons q qs ih =>
      intro cur
      by_cases h : d1 q < d1 cur
      · rcases ih q with ⟨l1, l2, hsplit, h1, h2⟩
        simp only [bestQuake, if_pos h]
        refine ⟨cur :: l1, l2, ?_, ?_, h2⟩
        · rw [List.cons_append, ← hsplit]
        · intro x hx
          rcases List.mem_cons.mp hx with rfl | hmem
          · exact lt_of_le_of_lt (bestQuake_le d1 qs q) h
          · exact h1 x hmem
      · rcases ih cur with ⟨l1, l2, hsplit, h1, h2⟩
        simp only [bestQuake, if_neg h]
        cases l1 with
        | nil =>
            simp only [List.nil_append] at hsplit
            have hcur : bestQuake d1 cur qs = cur := (List.cons.inj hsplit).1.symm
            have hqs : l2 = qs := (List.cons.inj hsplit).2.symm
            refine ⟨[], q :: qs, by simp [hcur], by simp, ?_⟩
            intro x hx
            rcases List.mem_cons.mp hx with rfl | hmem
            · rw [hcur]; exact le_of_not_lt h
            · exact h2 x (by rw [hqs]; exact hmem)
        | cons a l1tl =>
            have ha : a = cur := (List.cons.inj hsplit).1.symm
            have htl : qs = l1tl ++ bestQuake d1 cur qs :: l2 :=
              (List.cons.inj hsplit).2
            have hbc : d1 (bestQuake d1 cur qs) < d1 cur := by
              have := h1 a (List.mem_cons_self a l1tl)
              rwa [ha] at this
            refine ⟨cur :: q :: l1tl, l2, ?_, ?_, h2⟩
            · simp only [List.cons_append, List.cons.injEq, true_and]
              exact htl
            · intro x hx
              rcases List.mem_cons.mp hx with rfl | hmem
              · exact hbc
              · rcases List.mem_cons.mp hmem with rfl | hmem2
                · exact lt_of_lt_of_le hbc (le_of_not_lt h)
                · exact h1 x (List.mem_cons_of_mem a hmem2)

/-- If any element of the list errors, the (short-circuiting) monadic
map over `Except Unit` errors as a whole — one bad feature poisons the
entire batch. -/
theorem mapM_error_of_mem (f : JSVal → Except Unit GeoEvent) :
    ∀ (l : List JSVal) (x : JSVal), x ∈ l → f x = .error () →
      l.mapM f = .error () := by
  intro l
  induction l with
  | nil => intro x hx; exact absurd hx (List.not_mem_nil x)
  | cons a tl ih =>
      intro x hx herr
      rcases List.mem_cons.mp hx with rfl | hmem
      · simp only [List.mapM_cons, herr]; rfl
      · cases ha : f a with
        | error e => cases e; simp only [List.mapM_cons, ha]; rfl
        | ok v =>
            simp only [List.mapM_cons, ha, ih x hmem herr]
            rfl

/-- The base-36 digit loop always emits at least one character. -/
theorem toBase36Go_ne_nil (n : Nat) : ∀ acc : List Char, toBase36Go n acc ≠ [] := by
  induction n using Nat.strong_induction_on with
  | _ n ih =>
      intro acc
      unfold toBase36Go
      split
      · simp
      · next h =>
          exact ih (n / 36) (Nat.div_lt_self (by omega) (by omega)) _

/-- The generated inquiry identifier is never the empty string. -/
theorem toBase36_ne_empty (n : Nat) : toBase36 n ≠ "" := by
  intro h
  exact toBase36Go_ne_nil n [] (congrArg String.data h)

/-- The `value && typeof value === 'string'` gate accepts exactly the
nonempty strings. -/
theorem validText_iff (v : JSVal) :
    validText v = true ↔ ∃ s, v = .str s ∧ s ≠ "" := by
  cases v <;> simp [validText, toBool, isString]

/-- A feature whose occurrence time parses to an invalid date makes the
per-feature normalizer throw. -/
theorem quakeOfFeature_error_of_time {f : JSVal}
    (h : jsDateMs (optChain (getField f "properties") "time") = none) :
    quakeOfFeature f = .error () := by
  cases f <;> simp [quakeOfFeature, h]

/-- C1 (code-bug evidence): the spec's validation gate — "if latitude or
longitude is missing or not a finite number after extraction, the
normalizer yields no sample" — is violated by the code.  The object
branch tests the extracted coordinates with the global `isFinite`, which
is true on `null` (`Number(null) = 0`), so a record whose `location` is
an array with no numeric entries produces a sample with `null`
coordinates, and that sample reaches the built track; a record with no
coordinate fields at all extracts `(0, 0)` through the trailing `null`
candidate of `pickNumber` and produces a sample pinned to the origin. -/
theorem c1_coordinate_gate_bug :
    (normalizeBalloon entryEmptyLoc frameZero 0).map (fun s => (s.lat, s.lon))
        = some (none, none)
    ∧ (normalizeBalloon entryNoCoords frameZero 1).map (fun s => (s.lat, s.lon))
        = some (some 0, some 0)
    ∧ buildBalloonTracks dZero [frameZero] = [builtBad, builtZero]
    ∧ badSample ∈ builtBad.track ∧ badSample.lat = none ∧ badSample.lon = none := by
  refine ⟨rfl, rfl, ?_, List.mem_cons_self _ _, rfl, rfl⟩
  simp only [buildBalloonTracks, List.foldl, ingestFrame, frameZero, unwrapEntries]
  rfl

/-- C2: for a track with a latest sample and a non-empty event list, the
joiner attaches the event at the globally minimal distance, and on ties
the event encountered earlier wins: the input splits as
`l1 ++ best :: l2` with every event of `l1` strictly farther and no
event anywhere closer.  The distance function is a parameter standing
for the source's `haversineKm`; the scan logic is verified for every
metric. -/
theorem c2_nearest_first_min (d : GeoEvent → Sample → ℚ) (bs : List Balloon)
    (evs : List GeoEvent) (b : Balloon) (s : Sample)
    (hb : b.latest = some s) (hne : evs ≠ []) :
    attachNearestEarthquake d bs evs = bs.map (attachQuakeToBalloon d evs) ∧
    ∃ best l1 l2,
      attachQuakeToBalloon d evs b
        = { b with nearestEarthquake := some (some ⟨best, toFixed1 (d best s)⟩) } ∧
      evs = l1 ++ best :: l2 ∧
      (∀ x ∈ evs, d best s ≤ d x s) ∧
      (∀ x ∈ l1, d best s < d x s) := by
  cases evs with
  | nil => exact absurd rfl hne
  | cons q qs =>
      refine ⟨rfl, ?_⟩
      have hattach : attachQuakeToBalloon d (q :: qs) b
          = { b with nearestEarthquake := some ((q :: qs).foldl (scanStep (fun e => d e s)) (none, none)).1 } := by
        unfold attachQuakeToBalloon
        rw [hb]
      rcases bestQuake_split (fun e => d e s) qs q with ⟨l1, l2, hsplit, h1, h2⟩
      refine ⟨bestQuake (fun e => d e s) q qs, l1, l2, ?_, hsplit, ?_, h1⟩
      · rw [hattach, foldl_scanStep_start]
      · intro x hx
        rw [hsplit] at hx
        rcases List.mem_append.mp hx with hx1 | hx2
        · exact le_of_lt (h1 x hx1)
        · rcases List.mem_cons.mp hx2 with rfl | hx3
          · exact le_refl _
          · exact h2 x hx3

/-- C2 witness: with the instant-based metric `dOcc`, the two-event list
`[ev1, ev2]` (distances 5 and 3) attaches `ev2` to `balloonPair`. -/
theorem c2_witness :
    attachNearestEarthquake dOcc [balloonPair] [ev1, ev2]
        = [balloonPair].map (attachQuakeToBalloon dOcc [ev1, ev2]) ∧
    ∃ best l1 l2,
      attachQuakeToBalloon dOcc [ev1, ev2] balloonPair
        = { balloonPair with nearestEarthquake := some (some ⟨best, toFixed1 (dOcc best sampleLate)⟩) } ∧
      [ev1, ev2] = l1 ++ best :: l2 ∧
      (∀ x ∈ [ev1, ev2], dOcc best sampleLate ≤ dOcc x sampleLate) ∧
      (∀ x ∈ l1, dOcc best sampleLate < dOcc x sampleLate) :=
  c2_nearest_first_min dOcc [balloonPair] [ev1, ev2] balloonPair sampleLate rfl
    (by simp)

/-- C3 counterexample: the claim says a feature with an absent
occurrence time is kept (with an invalid-date marker) and does not
affect the other features; in fact `toISOString()` throws on the invalid
date, the catch returns the empty list, and even the well-formed feature
is dropped. -/
theorem c3_counterexample :
    fetchEarthquakes (some payloadMixed) = []
    ∧ fetchEarthquakes (some payloadGoodOnly) = [goodEvent] := ⟨rfl, rfl⟩

/-- C3 amended: any feature whose occurrence-time field parses to an
invalid date makes the whole fetch return the empty event list — the
event is dropped together with every other event of that cycle. -/
theorem c3_badtime_drops_all (payload : JSVal) (features : List JSVal) (f : JSVal)
    (hfeat : getField payload "features" = .arr features) (hmem : f ∈ features)
    (htime : jsDateMs (optChain (getField f "properties") "time") = none) :
    fetchEarthquakes (some payload) = [] := by
  have herr := quakeOfFeature_error_of_time htime
  unfold fetchEarthquakes
  simp only [hfeat, mapM_error_of_mem quakeOfFeature features f hmem herr]

/-- C3 witness: the mixed payload with one missing-time feature yields
no events at all. -/
theorem c3_witness : fetchEarthquakes (some payloadMixed) = [] :=
  c3_badtime_drops_all payloadMixed [goodFeature, badFeature] badFeature rfl
    (List.mem_cons_of_mem _ (List.mem_cons_self _ _)) rfl

/-- C4 counterexample: the published `totalDistanceKm` is the
`toFixed(2)`-rounded sum, not the sum itself — with a constant pairwise
distance of `1/3` km the published value is `0.33`. -/
theorem c4_counterexample :
    (finalizeBalloonTrack dThird trPair).map (fun b => b.totalDistanceKm)
        = some (33 / 100)
    ∧ consecPairSum dThird (sortByTs trPair.track) = 1 / 3
    ∧ (33 / 100 : ℚ) ≠ 1 / 3 := by
  refine ⟨?_, ?_, by norm_num⟩
  · norm_num [finalizeBalloonTrack, sortByTs, insertSample, trPair, sampleLate,
      sampleEarly, toFixed2, roundHalfUp, computePathDistance, dThird,
      globalIsFinite, optToJS, toNumber, List.getLast, Option.map]
  · norm_num [consecPairSum, sortByTs, insertSample, trPair, sampleLate,
      sampleEarly, dThird]

/-- C4 amended: the published cumulative path distance equals the
consecutive-pair sum of the chronologically sorted track, rounded by
`Number(sum.toFixed(2))`. -/
theorem c4_total_distance_rounded_sum (d : Sample → Sample → ℚ) (tr : RawTrack)
    (b : Balloon) (h : finalizeBalloonTrack d tr = some b) :
    b.track = sortByTs tr.track ∧
    b.totalDistanceKm = toFixed2 (consecPairSum d b.track) := by
  rcases finalize_spec h with ⟨h1, _, _, _, _, _, _, h8⟩
  exact ⟨h1, by rw [h8, computePathDistance_eq_consecPairSum]⟩

/-- C4 witness: the amended statement at the concrete two-sample track.
-/
theorem c4_witness :
    balloonPair.track = sortByTs trPair.track ∧
    balloonPair.totalDistanceKm = toFixed2 (consecPairSum dThird balloonPair.track) :=
  c4_total_distance_rounded_sum dThird trPair balloonPair rfl

/-- C5: a finalized track stores its samples sorted ascending by
timestamp, and the sort is stable — for every timestamp the sublist of
samples carrying it is exactly the input's sublist, in input order. -/
theorem c5_sorted_stable (d : Sample → Sample → ℚ) (tr : RawTrack) (b : Balloon)
    (h : finalizeBalloonTrack d tr = some b) :
    b.track = sortByTs tr.track ∧
    b.track.Pairwise tsLE ∧
    ∀ t : Int, b.track.filter (fun x => x.timestamp == t)
        = tr.track.filter (fun x => x.timestamp == t) := by
  rcases finalize_spec h with ⟨h1, -⟩
  refine ⟨h1, ?_, ?_⟩
  · rw [h1]; exact sortByTs_pairwise _
  · intro t; rw [h1]; exact sortByTs_filter _ t

/-- C5 witness: the out-of-order two-sample group comes out sorted and
stable. -/
theorem c5_witness :
    balloonPair.track = sortByTs trPair.track ∧
    balloonPair.track.Pairwise tsLE ∧
    balloonPair.track.filter (fun x => x.timestamp == 1)
      = trPair.track.filter (fun x => x.timestamp == 1) := by
  have h := c5_sorted_stable dThird trPair balloonPair rfl
  exact ⟨h.1, h.2.1, h.2.2 1⟩

/-- C7: with an empty event list the joiner returns the balloons
unchanged, and every track coming out of the builder then carries no
nearest-event field at all (`none`, the absent JS field — not a `null`
sentinel, which would be `some none`). -/
theorem c7_empty_events (d : GeoEvent → Sample → ℚ) (bs : List Balloon)
    (dd : Sample → Sample → ℚ) (frames : List Frame) :
    attachNearestEarthquake d bs [] = bs ∧
    ∀ b ∈ attachNearestEarthquake d (buildBalloonTracks dd frames) [],
      b.nearestEarthquake = none := by
  refine ⟨rfl, ?_⟩
  intro b hb
  have hb2 : b ∈ buildBalloonTracks dd frames := hb
  rcases List.mem_filterMap.mp hb2 with ⟨rt, -, hfin⟩
  exact (finalize_spec hfin).2.2.2.2.2.2.1

/-- C7 witness: concrete balloons pass through untouched and the built
track's field is absent. -/
theorem c7_witness :
    attachNearestEarthquake dOcc [balloonPair] [] = [balloonPair] ∧
    builtBad.nearestEarthquake = none := by
  refine ⟨(c7_empty_events dOcc [balloonPair] dZero [frameZero]).1, ?_⟩
  refine (c7_empty_events dOcc [balloonPair] dZero [frameZero]).2 builtBad ?_
  have e : attachNearestEarthquake dOcc (buildBalloonTracks dZero [frameZero]) []
      = [builtBad, builtZero] := by
    simp only [buildBalloonTracks, List.foldl, ingestFrame, frameZero, unwrapEntries]
    rfl
  rw [e]
  exact List.mem_cons_self _ _

/-- C8: every emitted track is non-empty and its derived fields are
consistent with the (chronologically sorted) sample list: `sampleCount`
is the length, `latest` is the last sample, `firstSeen`/`lastSeen` are
the first and last timestamps; an empty group is never emitted
(`finalizeBalloonTrack` returns `none` on it). -/
theorem c8_track_invariants (d : Sample → Sample → ℚ) (frames : List Frame)
    (b : Balloon) (hb : b ∈ buildBalloonTracks d frames) :
    b.track ≠ [] ∧
    b.sampleCount = b.track.length ∧
    b.latest = b.track.getLast? ∧
    (∃ f, b.track.head? = some f ∧ b.firstSeen = f.timestamp) ∧
    (∃ lz, b.track.getLast? = some lz ∧ b.lastSeen = lz.timestamp) ∧
    b.track.Pairwise tsLE ∧
    ∀ id1 : String, finalizeBalloonTrack d { balloonId := id1, track := [] } = none := by
  rcases List.mem_filterMap.mp hb with ⟨rt, -, hfin⟩
  rcases finalize_spec hfin with ⟨h1, h2, h3, h4, h5, h6, -, -⟩
  refine ⟨h2, h3, h4, h5, h6, ?_, fun id1 => rfl⟩
  rw [h1]; exact sortByTs_pairwise _

/-- C8 witness: the invariants at a concrete build. -/
theorem c8_witness :
    builtBad.track ≠ [] ∧
    builtBad.sampleCount = builtBad.track.length ∧
    builtBad.latest = builtBad.track.getLast? ∧
    (∃ f, builtBad.track.head? = some f ∧ builtBad.firstSeen = f.timestamp) ∧
    (∃ lz, builtBad.track.getLast? = some lz ∧ builtBad.lastSeen = lz.timestamp) ∧
    builtBad.track.Pairwise tsLE ∧
    finalizeBalloonTrack dZero { balloonId := "x", track := [] } = none := by
  have hmem : builtBad ∈ buildBalloonTracks dZero [frameZero] := by
    have e : buildBalloonTracks dZero [frameZero] = [builtBad, builtZero] := by
      simp only [buildBalloonTracks, List.foldl, ingestFrame, frameZero, unwrapEntries]
      rfl
    rw [e]
    exact List.mem_cons_self _ _
  have h := c8_track_invariants dZero [frameZero] builtBad hmem
  exact ⟨h.1, h.2.1, h.2.2.1, h.2.2.2.1, h.2.2.2.2.1, h.2.2.2.2.2.1,
    h.2.2.2.2.2.2 "x"⟩

/-- C9: an inquiry is rejected with the error naming `message` when the
message field is not a truthy string (missing, empty, or non-string),
rejected with the error naming `contact` when the message passes but the
contact does not, and otherwise accepted with an acknowledgment carrying
the non-empty base-36 identifier of the current instant and the
received-at instant; the truthy-string gate accepts exactly the
non-empty strings. -/
theorem c9_inquiry_validation (body : JSVal) (nowMs : Nat) :
    (∀ v : JSVal, validText v = true ↔ ∃ s, v = .str s ∧ s ≠ "") ∧
    (validText (msgField body) = false →
      postQuestions body nowMs = .badRequest "Missing question text in \"message\"") ∧
    (validText (msgField body) = true → validText (contactField body) = false →
      postQuestions body nowMs = .badRequest "Please include contact info in \"contact\"") ∧
    (validText (msgField body) = true → validText (contactField body) = true →
      postQuestions body nowMs
          = .accepted ⟨toBase36 nowMs, jsTrim (strVal (msgField body)),
              jsTrim (strVal (contactField body)), nowMs⟩
        ∧ toBase36 nowMs ≠ "") := by
  refine ⟨validText_iff, ?_, ?_, ?_⟩
  · intro h
    rw [validText] at h
    cases hb1 : toBool (msgField body) <;> cases hb2 : isString (msgField body) <;>
      rw [hb1, hb2] at h <;> simp_all [postQuestions]
  · intro h1 h2
    rw [validText] at h1 h2
    have hb1 := (Bool.and_eq_true _ _).mp h1
    cases hc1 : toBool (contactField body) <;> cases hc2 : isString (contactField body) <;>
      rw [hc1, hc2] at h2 <;> simp_all [postQuestions]
  · intro h1 h2
    rw [validText] at h1 h2
    have hb := (Bool.and_eq_true _ _).mp h1
    have hc := (Bool.and_eq_true _ _).mp h2
    refine ⟨?_, toBase36_ne_empty nowMs⟩
    simp [postQuestions, hb.1, hb.2, hc.1, hc.2]

/-- C9 witness: a populated inquiry is accepted with the trimmed fields
and identifier `"z"` (35 in base 36); a missing message is rejected
naming `message`. -/
theorem c9_witness :
    postQuestions goodBody 35 = .accepted ⟨toBase36 35, "hi", "x@y", 35⟩ ∧
    toBase36 35 = "z" ∧ toBase36 35 ≠ "" ∧
    postQuestions badBodyNoMsg 0 = .badRequest "Missing question text in \"message\"" := by
  have hgood := (c9_inquiry_validation goodBody 35).2.2.2 rfl rfl
  refine ⟨hgood.1, ?_, hgood.2, (c9_inquiry_validation badBodyNoMsg 0).2.1 rfl⟩
  simp [toBase36, toBase36Go, base36Char]

/-- C10: the constellation body (when not short-circuited by the ETag)
carries the full balloon collection and exactly the first ten events of
the cache in feed order, while the raw events route returns the entire
event collection — the two responses agree on content and order within
the served prefix. -/
theorem c10_event_cap (c : Cache) (inm : Option String) (body : ConstellationBody)
    (h : getConstellation c inm = some body) :
    body.earthquakes = c.earthquakes.take 10 ∧
    body.earthquakes.length ≤ 10 ∧
    body.balloons = c.balloons ∧
    (getEarthquakesRoute c).1 = c.earthquakes ∧
    ∀ i : Nat, i < body.earthquakes.length →
      body.earthquakes[i]? = (getEarthquakesRoute c).1[i]? := by
  unfold getConstellation at h
  by_cases hm : inm = some c.meta.etag
  · rw [if_pos hm] at h
    exact absurd h (by simp)
  · rw [if_neg hm] at h
    have hb := Option.some.inj h
    subst hb
    refine ⟨rfl, ?_, rfl, rfl, ?_⟩
    · simp only [List.length_take]
      omega
    · intro i hi
      have hi10 : i < 10 := by
        have := List.length_take 10 c.earthquakes
        simp only [ConstellationBody.earthquakes] at hi
        omega
      exact List.getElem?_take_of_lt hi10

/-- C10 witness: at the concrete cache, the constellation body holds
both events (fewer than ten exist), the full balloon list, and agrees
with the raw route at index 0. -/
theorem c10_witness :
    constBodyEx.earthquakes = cacheEx.earthquakes.take 10 ∧
    constBodyEx.earthquakes.length ≤ 10 ∧
    constBodyEx.balloons = cacheEx.balloons ∧
    (getEarthquakesRoute cacheEx).1 = cacheEx.earthquakes ∧
    constBodyEx.earthquakes[0]? = (getEarthquakesRoute cacheEx).1[0]? := by
  have h := c10_event_cap cacheEx none constBodyEx rfl
  exact ⟨h.1, h.2.1, h.2.2.1, h.2.2.2.1, h.2.2.2.2 0 (by simp [constBodyEx])⟩

end WB
